import Mathlib

/-!
Verification of the Genius lyrics scraper (genius_free_lyrics_for_apifiy.py)
and the orchestration script (main.py).

The HTML documents handled by the scraper are modelled as trees of element
nodes (tag, attribute list, children) and text nodes; Python strings are
modelled as lists of characters (`Str`).  The Apify actor's `main` coroutine
is modelled as a pure function from a fetch oracle (mapping each URL to the
outcome of `requests.get` + `raise_for_status`) to the list of records pushed
via `Actor.push_data`, together with an optional uncaught exception.
-/

namespace GeniusScrape

/-- Python strings are modelled as lists of characters. -/
abbrev Str := List Char

/-- Whitespace test used by Python's `str.strip()` (ASCII fragment). -/
def isWs (c : Char) : Bool := c.isWhitespace

/-- Python `s.strip()`: remove leading and trailing whitespace. -/
def strip (s : Str) : Str :=
  ((s.dropWhile isWs).reverse.dropWhile isWs).reverse

/-- Split `s` at the first occurrence of `sep` (Python `s.split(sep, 1)`
when `sep in s`); `none` when `sep` does not occur in `s`. -/
def splitFirst (sep : Str) : Str → Option (Str × Str)
  | [] => if List.isPrefixOf sep ([] : Str) then some ([], []) else none
  | c :: cs =>
    if List.isPrefixOf sep (c :: cs) then some ([], (c :: cs).drop sep.length)
    else
      match splitFirst sep cs with
      | some (a, b) => some (c :: a, b)
      | none => none

/-- Join a list of strings with a separator (Python `sep.join(parts)`). -/
def joinSep (sep : Str) : List Str → Str
  | [] => []
  | [p] => p
  | p :: q :: ps => p ++ sep ++ joinSep sep (q :: ps)

/-- Helper for `words`: `cur` holds the reversed characters of the word
currently being scanned. -/
def wordsGo (cur : Str) : Str → List Str
  | [] => if cur.isEmpty then [] else [cur.reverse]
  | c :: cs =>
    if isWs c then
      if cur.isEmpty then wordsGo [] cs else cur.reverse :: wordsGo [] cs
    else wordsGo (c :: cur) cs

/-- Split a string into maximal whitespace-free words (used for the
multi-valued `class` attribute). -/
def words (s : Str) : List Str := wordsGo [] s

/-- A node of the parsed HTML document: either a text node or an element
with a tag name, an attribute association list and a list of children. -/
inductive Node where
  | text : Str → Node
  | elem : Str → List (Str × Str) → List Node → Node

mutual

/-- Text pieces of a node's subtree, in document order (the strings that
BeautifulSoup's `get_text` concatenates). -/
def textPieces : Node → List Str
  | Node.text s => [s]
  | Node.elem _ _ cs => textPiecesList cs

/-- Text pieces of a forest, in document order. -/
def textPiecesList : List Node → List Str
  | [] => []
  | n :: ns => textPieces n ++ textPiecesList ns

end

mutual

/-- All element nodes of a subtree in pre-order (document order), the root
included when it is an element. -/
def allElems : Node → List Node
  | Node.text _ => []
  | Node.elem t attrs cs => Node.elem t attrs cs :: allElemsList cs

/-- All element nodes of a forest in pre-order. -/
def allElemsList : List Node → List Node
  | [] => []
  | n :: ns => allElems n ++ allElemsList ns

end

/-- Tag name of an element node. -/
def tagOf : Node → Option Str
  | Node.text _ => none
  | Node.elem t _ _ => some t

/-- Attribute lookup on a node. -/
def attrOf (k : Str) : Node → Option Str
  | Node.text _ => none
  | Node.elem _ attrs _ => List.lookup k attrs

/-- Children of a node. -/
def childrenOf : Node → List Node
  | Node.text _ => []
  | Node.elem _ _ cs => cs

/-- The stripped, non-empty text pieces of a node's subtree (what bs4's
`get_text(strip=True)` joins). -/
def cleanPieces (n : Node) : List Str :=
  ((textPieces n).map strip).filter (fun s => !s.isEmpty)

/-- bs4 `n.get_text(separator=sep, strip=True)`. -/
def getTextStrip (sep : Str) (n : Node) : Str :=
  joinSep sep (cleanPieces n)

/-- Class list of a node (the `class` attribute split on whitespace). -/
def classesOf (n : Node) : List Str :=
  words ((attrOf ('c' :: 'l' :: 'a' :: 's' :: 's' :: []) n).getD [])

/-- Whether a node carries the given CSS class. -/
def hasClassB (cls : Str) (n : Node) : Bool :=
  (classesOf n).contains cls

/-- Tail check shared by both alternatives of `LYRICS_URL_RE`
(`^https?://genius\.com/.+-lyrics/?$`): after the host prefix, the
remainder must be a non-empty newline-free slug followed by `-lyrics`
and an optional `/` (the regex `.` does not match a newline). -/
def reTail (rest : Str) : Bool :=
  if List.isSuffixOf "-lyrics/".toList rest then
    let mid := rest.take (rest.length - 8)
    !mid.isEmpty && mid.all (fun c => !(c == '\n'))
  else if List.isSuffixOf "-lyrics".toList rest then
    let mid := rest.take (rest.length - 7)
    !mid.isEmpty && mid.all (fun c => !(c == '\n'))
  else false

/-- The source regex `LYRICS_URL_RE = ^https?://genius\.com/.+-lyrics/?$`
as used via `re.match`: Python's `$` also matches just before one final
newline, so such a newline is discarded first. -/
def lyricsUrlRe (s : Str) : Bool :=
  let core := match s.getLast? with
    | some c => if c = '\n' then s.dropLast else s
    | none => s
  (List.isPrefixOf "http://genius.com/".toList core && reTail (core.drop 18))
    || (List.isPrefixOf "https://genius.com/".toList core && reTail (core.drop 19))

/-- Modelled from the spec: the lyric-page URL pattern as the spec words it,
literally `https://genius.com/<slug>-lyrics` with optional trailing slash
(for comparison with the source's `lyricsUrlRe`, which also accepts plain
`http://`). -/
def specLyricsUrl (s : Str) : Bool :=
  List.isPrefixOf "https://genius.com/".toList s &&
    (let r := s.drop 19
     if List.isSuffixOf "-lyrics/".toList r then !(r.take (r.length - 8)).isEmpty
     else if List.isSuffixOf "-lyrics".toList r then !(r.take (r.length - 7)).isEmpty
     else false)

/-- A candidate returned by `parse_search_results`. -/
structure SearchCandidate where
  url : Str
  song_title : Str
  artist_name : Str
deriving DecidableEq, Repr

/-- `a.get("href") or ""`. -/
def hrefOf (a : Node) : Str := (attrOf "href".toList a).getD []

/-- `a.select_one("." ++ cls)`: first descendant of `a` (in document order,
`a` itself excluded) carrying the class. -/
def selectOneClass (cls : Str) (a : Node) : Option Node :=
  ((allElemsList (childrenOf a)).filter (hasClassB cls)).head?

/-- `title_el.get_text(strip=True) if title_el else ""` for the
`.mini_card-title` sub-element. -/
def titleTextOf (a : Node) : Str :=
  match selectOneClass "mini_card-title".toList a with
  | some e => getTextStrip [] e
  | none => []

/-- `artist_el.get_text(strip=True) if artist_el else ""` for the
`.mini_card-subtitle` sub-element. -/
def subtitleTextOf (a : Node) : Str :=
  match selectOneClass "mini_card-subtitle".toList a with
  | some e => getTextStrip [] e
  | none => []

/-- `a.get_text(" ", strip=True)`: the anchor's full flattened text. -/
def anchorTextOf (a : Node) : Str := getTextStrip [' '] a

/-- The separator `" – "` (space, en-dash, space) tried first. -/
def enDashSep : Str := [' ', '–', ' ']

/-- The separator `" - "` (space, hyphen, space) tried second. -/
def hyphenSep : Str := [' ', '-', ' ']

/-- Title/artist resolution of the mini-card loop body: the dedicated
sub-elements, with a fallback on the anchor's flattened text split at
`" – "` then `" - "` when the title sub-element yielded nothing. -/
def miniTitleArtist (a : Node) : Str × Str :=
  if titleTextOf a = [] then
    match splitFirst enDashSep (anchorTextOf a) with
    | some pr => pr
    | none =>
      match splitFirst hyphenSep (anchorTextOf a) with
      | some pr => pr
      | none => (anchorTextOf a, subtitleTextOf a)
  else (titleTextOf a, subtitleTextOf a)

/-- Body of the primary (mini-card) loop for one anchor: `none` when the
anchor is skipped (`continue`), `some c` when a candidate is appended. -/
def miniProcess (a : Node) : Option SearchCandidate :=
  if lyricsUrlRe (hrefOf a) = false then none
  else if (miniTitleArtist a).1 = [] then none
  else some ⟨hrefOf a, strip (miniTitleArtist a).1, strip (miniTitleArtist a).2⟩

/-- Title/artist resolution of the fallback loop body (flattened text split
at `" – "` then `" - "`, the whole text with an empty artist otherwise). -/
def fallbackTitleArtist (text : Str) : Str × Str :=
  match splitFirst enDashSep text with
  | some pr => pr
  | none =>
    match splitFirst hyphenSep text with
    | some pr => pr
    | none => (text, [])

/-- Body of the fallback (all-anchors) loop for one anchor. -/
def fallbackProcess (a : Node) : Option SearchCandidate :=
  if lyricsUrlRe (hrefOf a) = false then none
  else if anchorTextOf a = [] then none
  else
    some ⟨hrefOf a, strip (fallbackTitleArtist (anchorTextOf a)).1,
      strip (fallbackTitleArtist (anchorTextOf a)).2⟩

/-- The scanning loop shared by both layouts: stop as soon as the result
list has reached `maxSongs` entries (`if len(results) >= max_songs: break`),
otherwise let the body either skip the anchor or append one candidate. -/
def scanLoop (process : Node → Option SearchCandidate) (maxSongs : Int)
    (acc : List SearchCandidate) : List Node → List SearchCandidate
  | [] => acc
  | a :: rest =>
    if maxSongs ≤ (acc.length : Int) then acc
    else
      match process a with
      | none => scanLoop process maxSongs acc rest
      | some c => scanLoop process maxSongs (acc ++ [c]) rest

/-- `soup.select("a.mini_card")`: anchors with class `mini_card`. -/
def selectMiniCards (doc : List Node) : List Node :=
  (allElemsList doc).filter
    (fun n => (tagOf n == some "a".toList) && hasClassB "mini_card".toList n)

/-- `soup.find_all("a", href=True)`: anchors carrying an `href` attribute. -/
def selectAnchorsHref (doc : List Node) : List Node :=
  (allElemsList doc).filter
    (fun n => (tagOf n == some "a".toList) && (attrOf "href".toList n).isSome)

/-- `parse_search_results(html, max_songs)`: try the mini-card layout first;
when it produced nothing, scan every anchor with an `href`. -/
def parse_search_results (doc : List Node) (maxSongs : Int) : List SearchCandidate :=
  if (scanLoop miniProcess maxSongs [] (selectMiniCards doc)).isEmpty then
    scanLoop fallbackProcess maxSongs [] (selectAnchorsHref doc)
  else scanLoop miniProcess maxSongs [] (selectMiniCards doc)

/-- `div[data-lyrics-container="true"]` selector of the new lyrics layout. -/
def isLyricsDiv (n : Node) : Bool :=
  (tagOf n == some "div".toList)
    && (attrOf "data-lyrics-container".toList n == some "true".toList)

/-- `parse_lyrics(html)`: newline-joined text of every lyrics container,
non-empty blocks joined by blank lines; fall back to the legacy `.lyrics`
element; return the stripped result. -/
def parse_lyrics (doc : List Node) : Str :=
  let blocks := ((allElemsList doc).filter isLyricsDiv).map (getTextStrip ['\n'])
  let text := joinSep "\n\n".toList (blocks.filter (fun b => !b.isEmpty))
  let text2 :=
    if text.isEmpty then
      match ((allElemsList doc).filter (hasClassB "lyrics".toList)).head? with
      | some old => getTextStrip ['\n'] old
      | none => text
    else text
  strip text2

/-- Uppercase hexadecimal digit, as produced by `urllib.parse.quote`. -/
def hexDigit (n : Nat) : Char :=
  if n < 10 then Char.ofNat (48 + n) else Char.ofNat (55 + n)

/-- UTF-8 encoding of one character. -/
def utf8Bytes (c : Char) : List Nat :=
  let n := c.toNat
  if n < 128 then [n]
  else if n < 2048 then [192 + n / 64, 128 + n % 64]
  else if n < 65536 then [224 + n / 4096, 128 + (n / 64) % 64, 128 + n % 64]
  else [240 + n / 262144, 128 + (n / 4096) % 64, 128 + (n / 64) % 64, 128 + n % 64]

/-- Characters `urllib.parse.quote_plus` leaves unescaped. -/
def isUrlSafe (c : Char) : Bool :=
  c.isAlphanum || c == '_' || c == '.' || c == '-' || c == '~'

/-- `urllib.parse.quote_plus`: spaces become `+`, unsafe characters become
percent-encoded UTF-8 bytes. -/
def quotePlus (s : Str) : Str :=
  s.foldr
    (fun c acc =>
      (if c = ' ' then ['+']
       else if isUrlSafe c then [c]
       else (utf8Bytes c).foldr
         (fun b acc2 => '%' :: hexDigit (b / 16) :: hexDigit (b % 16) :: acc2) []) ++ acc)
    []

/-- `f"https://genius.com/search?q={quote_plus(search_query)}"`. -/
def searchUrlFor (query : Str) : Str :=
  "https://genius.com/search?q=".toList ++ quotePlus query

/-- Python `str(status)` for `status: int | None`. -/
def statusToStr : Option Int → Str
  | none => "None".toList
  | some n =>
    if n < 0 then '-' :: Nat.toDigits 10 (-n).toNat
    else Nat.toDigits 10 n.toNat

/-- `f"Failed to fetch search page (status={status})"`. -/
def searchFailMsg (st : Option Int) : Str :=
  "Failed to fetch search page (status=".toList ++ statusToStr st ++ ")".toList

/-- `f"Failed to fetch song page (status={status})"`. -/
def songFailMsg (st : Option Int) : Str :=
  "Failed to fetch song page (status=".toList ++ statusToStr st ++ ")".toList

/-- The record pushed to the output sink via `Actor.push_data`. -/
structure LyricsRecord where
  searchQuery : Str
  songTitle : Option Str
  artistName : Option Str
  url : Str
  lyricsText : Str
  error : Option Str
deriving DecidableEq, Repr

/-- Outcome of one `fetch_html_sync` call: the parsed document on a 2xx
response, `httpError` for the `requests.HTTPError` raised by
`raise_for_status` (carrying `e.response.status_code`, or `none` when the
exception has no response attached), and `netFail` for every other request
exception (connection errors, timeouts), which `main` does not catch. -/
inductive FetchOutcome where
  | ok (doc : List Node)
  | httpError (status : Option Int)
  | netFail

/-- An exception escaping `main` (modelled, not pushed to the sink). -/
inductive RunCrash where
  | uncaughtFetchError (url : Str)
  | missingQuery
deriving DecidableEq, Repr

/-- The error record pushed when the search-page fetch raises `HTTPError`. -/
def searchFailRecord (query url : Str) (st : Option Int) : LyricsRecord :=
  ⟨query, none, none, url, [], some (searchFailMsg st)⟩

/-- The error record pushed when no candidate was extracted. -/
def noCandidatesRecord (query url : Str) : LyricsRecord :=
  ⟨query, none, none, url, [],
    some "No candidates found on Genius search page".toList⟩

/-- The record pushed for one candidate song page. -/
def mkSongRecord (query : Str) (c : SearchCandidate) (lyr : Str)
    (err : Option Str) : LyricsRecord :=
  ⟨query, some c.song_title, some c.artist_name, c.url, lyr, err⟩

/-- The per-candidate loop of `main`: each candidate page is fetched; an
`HTTPError` yields an error record and the loop continues with the next
candidate; any other exception escapes, keeping the records already pushed. -/
def candLoop (query : Str) (fetch : Str → FetchOutcome) :
    List SearchCandidate → List LyricsRecord × Option RunCrash
  | [] => ([], none)
  | c :: rest =>
    match fetch c.url with
    | FetchOutcome.netFail => ([], some (RunCrash.uncaughtFetchError c.url))
    | FetchOutcome.httpError st =>
      (mkSongRecord query c [] (some (songFailMsg st)) :: (candLoop query fetch rest).1,
        (candLoop query fetch rest).2)
    | FetchOutcome.ok d =>
      (mkSongRecord query c (parse_lyrics d) none :: (candLoop query fetch rest).1,
        (candLoop query fetch rest).2)

/-- The scrape flow of `main` after input validation: fetch the search page,
extract candidates, then process each candidate.  Returns the records pushed
in order, paired with the exception that escaped, if any. -/
def runScrape (query : Str) (maxSongs : Int) (fetch : Str → FetchOutcome) :
    List LyricsRecord × Option RunCrash :=
  match fetch (searchUrlFor query) with
  | FetchOutcome.netFail =>
    ([], some (RunCrash.uncaughtFetchError (searchUrlFor query)))
  | FetchOutcome.httpError st =>
    ([searchFailRecord query (searchUrlFor query) st], none)
  | FetchOutcome.ok doc =>
    if (parse_search_results doc maxSongs).isEmpty then
      ([noCandidatesRecord query (searchUrlFor query)], none)
    else candLoop query fetch (parse_search_results doc maxSongs)

/-- `int(actor_input.get("maxSongs", 1) or 1)`: a missing value defaults to
1, and so does 0, because `0 or 1` evaluates to 1. -/
def coerceMaxSongs : Option Int → Int
  | none => 1
  | some n => if n = 0 then 1 else n

/-- `main` from the actor input on: a missing or empty `searchQuery` raises
`RuntimeError` before anything is pushed; otherwise the scrape flow runs
with the coerced `maxSongs`. -/
def runMain (searchQuery : Option Str) (maxSongsRaw : Option Int)
    (fetch : Str → FetchOutcome) : List LyricsRecord × Option RunCrash :=
  match searchQuery with
  | none => ([], some RunCrash.missingQuery)
  | some q =>
    if q.isEmpty then ([], some RunCrash.missingQuery)
    else runScrape q (coerceMaxSongs maxSongsRaw) fetch

/-- JSON values, as returned by `json.loads` in `main.py`. -/
inductive Json where
  | null
  | bool : Bool → Json
  | num : Int → Json
  | str : Str → Json
  | arr : List Json → Json
  | obj : List (Str × Json) → Json

/-- Field lookup on a parsed JSON object (`data["tracks"]` on the dict). -/
def dictLookup (k : Str) (fields : List (Str × Json)) : Option Json :=
  List.lookup k fields

/-- `isOk` test on a modelled fallible computation. -/
def isErr : Except Str α → Bool
  | Except.error _ => true
  | Except.ok _ => false

/-- The validation step of `get_first_album_from_llm` on the parsed LLM
output: `if "tracks" not in data or not isinstance(data["tracks"], list):
raise RuntimeError(...)`, otherwise the data is returned unchanged. -/
def get_first_album_check (fields : List (Str × Json)) :
    Except Str (List (Str × Json)) :=
  match dictLookup "tracks".toList fields with
  | some (Json.arr _) => Except.ok fields
  | some _ => Except.error "LLM output is not in the expected format".toList
  | none => Except.error "LLM output is not in the expected format".toList

/-- The record `main` pushes for one candidate whose fetch does not raise
an uncaught exception: the lyrics on success, an error record on
`HTTPError` (the `netFail` arm is never used under that assumption). -/
def candRecord (query : Str) (fetch : Str → FetchOutcome)
    (c : SearchCandidate) : LyricsRecord :=
  match fetch c.url with
  | FetchOutcome.ok d => mkSongRecord query c (parse_lyrics d) none
  | FetchOutcome.httpError st => mkSongRecord query c [] (some (songFailMsg st))
  | FetchOutcome.netFail => mkSongRecord query c [] none

/-- A search page with one matching plain anchor (fallback layout). -/
def sampleDoc : List Node :=
  [Node.elem "a".toList [("href".toList, "https://genius.com/x-lyrics".toList)]
    [Node.text "Alpha – Beta".toList]]

/-- The candidate `parse_search_results` extracts from `sampleDoc`. -/
def sampleCand : SearchCandidate :=
  ⟨"https://genius.com/x-lyrics".toList, "Alpha".toList, "Beta".toList⟩

/-- A sample search query. -/
def q0 : Str := "q".toList

/-- A fetch oracle failing every request with HTTP 403. -/
def httpFetch : Str → FetchOutcome := fun _ => FetchOutcome.httpError (some 403)

/-- A fetch oracle serving `sampleDoc` for the search page and failing every
song page with HTTP 404. -/
def fetch404 : Str → FetchOutcome := fun u =>
  if u = searchUrlFor q0 then FetchOutcome.ok sampleDoc
  else FetchOutcome.httpError (some 404)

/-- A fetch oracle serving an empty page for every request. -/
def okEmptyFetch : Str → FetchOutcome := fun _ => FetchOutcome.ok []

/-- A search page whose only matching anchor uses the plain `http` scheme. -/
def httpDoc : List Node :=
  [Node.elem "a".toList [("href".toList, "http://genius.com/abc-lyrics".toList)]
    [Node.text "T".toList]]

/-- A mini-card anchor with a non-empty title sub-element, no subtitle
sub-element, and a flattened text containing the en-dash separator. -/
def c8Anchor : Node :=
  Node.elem "a".toList
    [("class".toList, "mini_card".toList),
     ("href".toList, "https://genius.com/x-lyrics".toList)]
    [Node.elem "span".toList [("class".toList, "mini_card-title".toList)]
      [Node.text "T".toList],
     Node.text " – B".toList]

/-!  String lemmas: every string produced by `get_text(..., strip=True)` is
either empty or starts with a non-whitespace character, which is what makes
the stripped titles of `parse_search_results` non-empty. -/

/-- A string that is empty or starts with a non-whitespace character. -/
def niceStr (s : Str) : Prop :=
  s = [] ∨ ∃ c t, s = c :: t ∧ isWs c = false

theorem dropWhile_shape (p : Char → Bool) (l : Str) :
    l.dropWhile p = [] ∨ ∃ c t, l.dropWhile p = c :: t ∧ p c = false := by
  induction l with
  | nil => exact Or.inl rfl
  | cons c cs ih =>
    by_cases h : p c
    · simpa [List.dropWhile_cons, h] using ih
    · exact Or.inr ⟨c, cs, by simp [List.dropWhile_cons, h], by simpa using h⟩

theorem dropWhile_append_last (p : Char → Bool) (c : Char) (hc : p c = false)
    (l : Str) : ∃ u : Str, (l ++ [c]).dropWhile p = u ++ [c] := by
  induction l with
  | nil => exact ⟨[], by simp [List.dropWhile_cons, hc]⟩
  | cons x xs ih =>
    by_cases h : p x
    · obtain ⟨u, hu⟩ := ih
      exact ⟨u, by simp [List.cons_append, List.dropWhile_cons, h, hu]⟩
    · exact ⟨x :: xs, by simp [List.cons_append, List.dropWhile_cons, h]⟩

theorem strip_core (c : Char) (t : Str) (hc : isWs c = false) :
    ∃ u : Str, ((c :: t).reverse.dropWhile isWs).reverse = c :: u := by
  obtain ⟨u, hu⟩ := dropWhile_append_last isWs c hc t.reverse
  refine ⟨u.reverse, ?_⟩
  rw [List.reverse_cons, hu, List.reverse_append]
  simp

theorem strip_cons (c : Char) (t : Str) (hc : isWs c = false) :
    ∃ u : Str, strip (c :: t) = c :: u := by
  have hd : (c :: t).dropWhile isWs = c :: t := by simp [List.dropWhile_cons, hc]
  unfold strip
  rw [hd]
  exact strip_core c t hc

theorem strip_shape (s : Str) :
    strip s = [] ∨ ∃ c t, strip s = c :: t ∧ isWs c = false := by
  rcases dropWhile_shape isWs s with h | ⟨c, t, h, hc⟩
  · left; unfold strip; rw [h]; rfl
  · right
    obtain ⟨u, hu⟩ := strip_core c t hc
    exact ⟨c, u, by unfold strip; rw [h]; exact hu, hc⟩

theorem strip_ne_nil (s : Str) (hn : niceStr s) (hne : s ≠ []) : strip s ≠ [] := by
  rcases hn with rfl | ⟨c, t, rfl, hc⟩
  · exact absurd rfl hne
  · obtain ⟨u, hu⟩ := strip_cons c t hc
    simp [hu]

theorem joinSep_cons (sep p : Str) (ps : List Str) :
    ∃ r : Str, joinSep sep (p :: ps) = p ++ r := by
  cases ps with
  | nil => exact ⟨[], (List.append_nil p).symm⟩
  | cons q qs => exact ⟨sep ++ joinSep sep (q :: qs), by simp [joinSep]⟩

theorem niceStr_getTextStrip (sep : Str) (n : Node) : niceStr (getTextStrip sep n) := by
  unfold getTextStrip
  cases h : cleanPieces n with
  | nil => exact Or.inl rfl
  | cons p ps =>
    have hp : p ∈ cleanPieces n := by rw [h]; exact List.mem_cons_self p ps
    unfold cleanPieces at hp
    obtain ⟨hpm, hpe⟩ := List.mem_filter.mp hp
    obtain ⟨q, _, hq⟩ := List.mem_map.mp hpm
    have hpne : p ≠ [] := by
      intro hnil
      rw [hnil] at hpe
      simp at hpe
    rcases strip_shape q with h0 | ⟨c, t, hct, hc⟩
    · rw [hq] at h0
      exact absurd h0 hpne
    · obtain ⟨r, hr⟩ := joinSep_cons sep p ps
      refine Or.inr ⟨c, t ++ r, ?_, hc⟩
      rw [hr, ← hq, hct]
      rfl

theorem splitFirst_eq_append (sep : Str) :
    ∀ s a b : Str, splitFirst sep s = some (a, b) → s = a ++ sep ++ b := by
  intro s
  induction s with
  | nil =>
    intro a b h
    unfold splitFirst at h
    by_cases hp : List.isPrefixOf sep ([] : Str)
    · rw [if_pos hp] at h
      simp only [Option.some.injEq, Prod.mk.injEq] at h
      obtain ⟨ha, hb⟩ := h
      have hsep : sep = [] := List.prefix_nil.mp (List.isPrefixOf_iff_prefix.mp hp)
      rw [← ha, ← hb, hsep]
      rfl
    · rw [if_neg hp] at h
      exact absurd h (by simp)
  | cons c cs ih =>
    intro a b h
    unfold splitFirst at h
    by_cases hp : List.isPrefixOf sep (c :: cs)
    · rw [if_pos hp] at h
      simp only [Option.some.injEq, Prod.mk.injEq] at h
      obtain ⟨ha, hb⟩ := h
      obtain ⟨tl, htl⟩ := List.isPrefixOf_iff_prefix.mp hp
      rw [← ha, ← hb, ← htl, List.drop_left]
      rfl
    · rw [if_neg hp] at h
      cases hs : splitFirst sep cs with
      | none =>
        rw [hs] at h
        exact absurd h (by simp)
      | some pr =>
        obtain ⟨a0, b0⟩ := pr
        rw [hs] at h
        simp only [Option.some.injEq, Prod.mk.injEq] at h
        obtain ⟨ha, hb⟩ := h
        rw [← ha, ← hb, ih a0 b0 hs]
        rfl

theorem splitFirst_space_fst (sep s a b : Str) (hsep : ∃ u, sep = ' ' :: u)
    (hn : niceStr s) (h : splitFirst sep s = some (a, b)) :
    a ≠ [] ∧ niceStr a := by
  obtain ⟨u, rfl⟩ := hsep
  have he := splitFirst_eq_append (' ' :: u) s a b h
  rcases hn with rfl | ⟨c, t, rfl, hc⟩
  · exact absurd he.symm (by simp)
  · cases a with
    | nil =>
      simp only [List.nil_append, List.cons_append] at he
      have hcsp : c = ' ' := by injection he
      rw [hcsp] at hc
      simp [isWs] at hc
    | cons a0 a1 =>
      refine ⟨by simp, ?_⟩
      simp only [List.cons_append, List.append_assoc] at he
      have ha0 : c = a0 := by injection he
      exact Or.inr ⟨a0, a1, rfl, by rw [← ha0]; exact hc⟩

theorem niceStr_append_left (x y : Str) (h : niceStr (x ++ y)) : niceStr x := by
  cases x with
  | nil => exact Or.inl rfl
  | cons c t =>
    rcases h with h0 | ⟨d, u, hdu, hd⟩
    · exact absurd h0 (by simp)
    · simp only [List.cons_append] at hdu
      have hcd : c = d := by injection hdu
      exact Or.inr ⟨c, t, rfl, by rw [hcd]; exact hd⟩

theorem anchorTextOf_eq (a : Node) : anchorTextOf a = getTextStrip [' '] a := rfl

theorem niceStr_anchorText (a : Node) : niceStr (anchorTextOf a) :=
  niceStr_getTextStrip [' '] a

theorem niceStr_titleText (a : Node) : niceStr (titleTextOf a) := by
  unfold titleTextOf
  cases selectOneClass "mini_card-title".toList a with
  | none => exact Or.inl rfl
  | some e => exact niceStr_getTextStrip [] e

theorem niceStr_miniFst (a : Node) : niceStr (miniTitleArtist a).1 := by
  unfold miniTitleArtist
  split
  · split
    · next pr h1 =>
      have he := splitFirst_eq_append enDashSep (anchorTextOf a) pr.1 pr.2 (by rw [h1])
      have hn := niceStr_anchorText a
      rw [he] at hn
      exact niceStr_append_left _ _ (niceStr_append_left _ _ hn)
    · split
      · next pr h2 =>
        have he := splitFirst_eq_append hyphenSep (anchorTextOf a) pr.1 pr.2 (by rw [h2])
        have hn := niceStr_anchorText a
        rw [he] at hn
        exact niceStr_append_left _ _ (niceStr_append_left _ _ hn)
      · exact niceStr_anchorText a
  · exact niceStr_titleText a

theorem fallbackFst_good (text : Str) (hn : niceStr text) (hne : text ≠ []) :
    (fallbackTitleArtist text).1 ≠ [] ∧ niceStr (fallbackTitleArtist text).1 := by
  unfold fallbackTitleArtist
  split
  · next pr h1 =>
    exact splitFirst_space_fst enDashSep text pr.1 pr.2 ⟨_, rfl⟩ hn (by rw [h1])
  · split
    · next pr h2 =>
      exact splitFirst_space_fst hyphenSep text pr.1 pr.2 ⟨_, rfl⟩ hn (by rw [h2])
    · exact ⟨hne, hn⟩

/-- Every candidate appended by the mini-card loop body has a URL accepted
by `LYRICS_URL_RE` and a non-empty title. -/
theorem miniProcess_good {a : Node} {c : SearchCandidate}
    (h : miniProcess a = some c) :
    lyricsUrlRe c.url = true ∧ c.song_title ≠ [] := by
  unfold miniProcess at h
  split at h
  · exact absurd h (by simp)
  · split at h
    · exact absurd h (by simp)
    · next hurl hfst =>
      simp only [Option.some.injEq] at h
      rw [← h]
      refine ⟨by simpa using hurl, ?_⟩
      exact strip_ne_nil _ (niceStr_miniFst a) hfst

/-- Every candidate appended by the fallback loop body has a URL accepted
by `LYRICS_URL_RE` and a non-empty title. -/
theorem fallbackProcess_good {a : Node} {c : SearchCandidate}
    (h : fallbackProcess a = some c) :
    lyricsUrlRe c.url = true ∧ c.song_title ≠ [] := by
  unfold fallbackProcess at h
  split at h
  · exact absurd h (by simp)
  · split at h
    · exact absurd h (by simp)
    · next hurl htext =>
      simp only [Option.some.injEq] at h
      rw [← h]
      obtain ⟨h1, h2⟩ := fallbackFst_good (anchorTextOf a) (niceStr_anchorText a) htext
      exact ⟨by simpa using hurl, strip_ne_nil _ h2 h1⟩

/-- When an anchor's `href` fails the URL pattern, the mini-card loop body
skips it. -/
theorem miniProcess_skip {a : Node} (h : lyricsUrlRe (hrefOf a) = false) :
    miniProcess a = none := by
  unfold miniProcess
  rw [if_pos h]

/-- When an anchor's `href` fails the URL pattern, the fallback loop body
skips it. -/
theorem fallbackProcess_skip {a : Node} (h : lyricsUrlRe (hrefOf a) = false) :
    fallbackProcess a = none := by
  unfold fallbackProcess
  rw [if_pos h]

theorem scanLoop_nil (process : Node → Option SearchCandidate) (m : Int)
    (acc : List SearchCandidate) : scanLoop process m acc [] = acc := rfl

theorem scanLoop_cons (process : Node → Option SearchCandidate) (m : Int)
    (acc : List SearchCandidate) (a : Node) (rest : List Node) :
    scanLoop process m acc (a :: rest) =
      if m ≤ (acc.length : Int) then acc
      else
        match process a with
        | none => scanLoop process m acc rest
        | some c => scanLoop process m (acc ++ [c]) rest := rfl

/-- Once the accumulator has reached the bound, the loop returns it. -/
theorem scanLoop_stop (process : Node → Option SearchCandidate) (m : Int)
    (acc : List SearchCandidate) (l : List Node) (h : m ≤ (acc.length : Int)) :
    scanLoop process m acc l = acc := by
  cases l with
  | nil => rfl
  | cons a rest => rw [scanLoop_cons, if_pos h]

/-- Every member of the loop's result is an accumulator member or was
produced by the loop body. -/
theorem scanLoop_mem (process : Node → Option SearchCandidate) (m : Int)
    (P : SearchCandidate → Prop) (hP : ∀ a c, process a = some c → P c) :
    ∀ (l : List Node) (acc : List SearchCandidate), (∀ x ∈ acc, P x) →
      ∀ c ∈ scanLoop process m acc l, P c := by
  intro l
  induction l with
  | nil =>
    intro acc hacc c hc
    rw [scanLoop_nil] at hc
    exact hacc c hc
  | cons a rest ih =>
    intro acc hacc c hc
    rw [scanLoop_cons] at hc
    by_cases hstop : m ≤ (acc.length : Int)
    · rw [if_pos hstop] at hc
      exact hacc c hc
    · rw [if_neg hstop] at hc
      cases hpa : process a with
      | none =>
        rw [hpa] at hc
        exact ih acc hacc c hc
      | some c0 =>
        rw [hpa] at hc
        refine ih (acc ++ [c0]) ?_ c hc
        intro x hx
        rcases List.mem_append.mp hx with hx1 | hx2
        · exact hacc x hx1
        · rw [List.mem_singleton] at hx2
          rw [hx2]
          exact hP a c0 hpa

/-- The loop never grows the accumulator beyond `max(maxSongs, 0)`. -/
theorem scanLoop_length (process : Node → Option SearchCandidate) (m : Int) :
    ∀ (l : List Node) (acc : List SearchCandidate), acc.length ≤ m.toNat →
      (scanLoop process m acc l).length ≤ m.toNat := by
  intro l
  induction l with
  | nil =>
    intro acc h
    rw [scanLoop_nil]
    exact h
  | cons a rest ih =>
    intro acc h
    rw [scanLoop_cons]
    by_cases hstop : m ≤ (acc.length : Int)
    · rw [if_pos hstop]
      exact h
    · rw [if_neg hstop]
      cases hpa : process a with
      | none => exact ih acc h
      | some c0 =>
        refine ih (acc ++ [c0]) ?_
        have hlt : (acc.length : Int) < m := lt_of_not_le hstop
        simp only [List.length_append, List.length_singleton]
        omega

/-- Anchors whose body skips them can be filtered out without changing the
loop's result: they do not count toward `maxSongs`. -/
theorem scanLoop_filter (process : Node → Option SearchCandidate)
    (q : Node → Bool) (m : Int) (hq : ∀ a, q a = false → process a = none) :
    ∀ (l : List Node) (acc : List SearchCandidate),
      scanLoop process m acc l = scanLoop process m acc (l.filter q) := by
  intro l
  induction l with
  | nil => intro acc; rfl
  | cons a rest ih =>
    intro acc
    by_cases hqa : q a
    · rw [List.filter_cons_of_pos hqa, scanLoop_cons, scanLoop_cons]
      by_cases hstop : m ≤ (acc.length : Int)
      · rw [if_pos hstop, if_pos hstop]
      · rw [if_neg hstop, if_neg hstop]
        cases hpa : process a with
        | none => exact ih acc
        | some c0 => exact ih (acc ++ [c0])
    · have hpa := hq a (by simpa using hqa)
      rw [List.filter_cons_of_neg (by simpa using hqa), scanLoop_cons]
      by_cases hstop : m ≤ (acc.length : Int)
      · rw [if_pos hstop, scanLoop_stop process m acc _ hstop]
      · rw [if_neg hstop, hpa]
        exact ih acc

theorem candLoop_nil (query : Str) (fetch : Str → FetchOutcome) :
    candLoop query fetch [] = ([], none) := rfl

theorem candLoop_cons (query : Str) (fetch : Str → FetchOutcome)
    (c : SearchCandidate) (rest : List SearchCandidate) :
    candLoop query fetch (c :: rest) =
      match fetch c.url with
      | FetchOutcome.netFail => ([], some (RunCrash.uncaughtFetchError c.url))
      | FetchOutcome.httpError st =>
        (mkSongRecord query c [] (some (songFailMsg st)) :: (candLoop query fetch rest).1,
          (candLoop query fetch rest).2)
      | FetchOutcome.ok d =>
        (mkSongRecord query c (parse_lyrics d) none :: (candLoop query fetch rest).1,
          (candLoop query fetch rest).2) := rfl

/-- When no candidate fetch raises an uncaught exception, the loop pushes
exactly one record per candidate, in candidate order; in particular one
candidate's HTTP failure never aborts its siblings. -/
theorem candLoop_map (query : Str) (fetch : Str → FetchOutcome) :
    ∀ cs : List SearchCandidate, (∀ c ∈ cs, fetch c.url ≠ FetchOutcome.netFail) →
      candLoop query fetch cs = (cs.map (candRecord query fetch), none) := by
  intro cs
  induction cs with
  | nil => intro _; rfl
  | cons c rest ih =>
    intro h
    have hc := h c (List.mem_cons_self c rest)
    have hrest : ∀ x ∈ rest, fetch x.url ≠ FetchOutcome.netFail :=
      fun x hx => h x (List.mem_cons_of_mem c hx)
    rw [candLoop_cons]
    cases hfc : fetch c.url with
    | netFail => exact absurd hfc hc
    | httpError st =>
      rw [ih hrest]
      simp [candRecord, hfc]
    | ok d =>
      rw [ih hrest]
      simp [candRecord, hfc]

/-- Every record the candidate loop pushes with a non-null error has empty
lyrics text. -/
theorem candLoop_error_empty (query : Str) (fetch : Str → FetchOutcome) :
    ∀ cs : List SearchCandidate, ∀ r ∈ (candLoop query fetch cs).1,
      r.error ≠ none → r.lyricsText = [] := by
  intro cs
  induction cs with
  | nil =>
    intro r hr
    rw [candLoop_nil] at hr
    exact absurd hr (by simp)
  | cons c rest ih =>
    intro r hr herr
    rw [candLoop_cons] at hr
    cases hfc : fetch c.url with
    | netFail =>
      rw [hfc] at hr
      exact absurd hr (by simp)
    | httpError st =>
      rw [hfc] at hr
      rcases List.mem_cons.mp hr with hr1 | hr2
      · rw [hr1]; rfl
      · exact ih r hr2 herr
    | ok d =>
      rw [hfc] at hr
      rcases List.mem_cons.mp hr with hr1 | hr2
      · rw [hr1] at herr
        exact absurd rfl herr
      · exact ih r hr2 herr

/-- When no fetch raises an uncaught exception, the scrape flow completes
and pushes at least one record. -/
theorem runScrape_no_netFail (q : Str) (m : Int) (fetch : Str → FetchOutcome)
    (hnf : ∀ u, fetch u ≠ FetchOutcome.netFail) :
    (runScrape q m fetch).2 = none ∧ 1 ≤ (runScrape q m fetch).1.length := by
  unfold runScrape
  cases hf : fetch (searchUrlFor q) with
  | netFail => exact absurd hf (hnf _)
  | httpError st => exact ⟨rfl, by simp⟩
  | ok doc =>
    dsimp only
    by_cases he : (parse_search_results doc m).isEmpty
    · rw [if_pos he]
      exact ⟨rfl, by simp⟩
    · rw [if_neg he]
      have hne : parse_search_results doc m ≠ [] := by
        simpa [List.isEmpty_iff] using he
      rw [candLoop_map q fetch _ (fun c _ => hnf c.url)]
      refine ⟨rfl, ?_⟩
      simp only [List.length_map]
      exact Nat.one_le_iff_ne_zero.mpr (by simpa [List.length_eq_zero] using hne)

/-- C1 (counterexample): the claim that every transport failure — network
failures and timeouts included — is converted into a diagnostic record is
false: `main` catches only `requests.HTTPError`, so a timed-out search-page
fetch makes the run crash with zero records pushed, refuting "at least one
LyricsRecord is pushed". -/
theorem c1_timeout_crash_counterexample :
    (runMain (some "Bohemian Rhapsody".toList) (some 1)
        (fun _ => FetchOutcome.netFail)).1.length = 0
    ∧ (runMain (some "Bohemian Rhapsody".toList) (some 1)
        (fun _ => FetchOutcome.netFail)).2 ≠ none := by
  decide

/-- C1 (amended): with a search query present, every HTTP status failure of
a fetch is converted into a diagnostic record rather than propagated, and
provided no fetch fails with a non-HTTP transport failure (network error or
timeout — those escape uncaught), the run completes and pushes at least one
record. -/
theorem c1_records_when_no_transport_failure (q : Str) (msRaw : Option Int)
    (fetch : Str → FetchOutcome) (hq : q ≠ [])
    (hnf : ∀ u, fetch u ≠ FetchOutcome.netFail) :
    (runMain (some q) msRaw fetch).2 = none
    ∧ 1 ≤ (runMain (some q) msRaw fetch).1.length := by
  have hqe : q.isEmpty = false := by simpa [List.isEmpty_iff] using hq
  unfold runMain
  dsimp only
  rw [if_neg (show ¬(q.isEmpty = true) by simp [hqe])]
  exact runScrape_no_netFail q (coerceMaxSongs msRaw) fetch hnf

/-- C1 (witness): a run whose only failures are HTTP 403 responses pushes a
record and does not crash. -/
theorem c1_witness :
    (runMain (some q0) none httpFetch).2 = none
    ∧ 1 ≤ (runMain (some q0) none httpFetch).1.length :=
  c1_records_when_no_transport_failure q0 none httpFetch (by decide)
    (fun _ h => FetchOutcome.noConfusion h)

/-- C2: when the search-page fetch raises an `HTTPError` carrying status
`n`, the run pushes exactly one record with null title and artist, empty
lyrics and an error embedding the status code, and terminates without
touching any candidate page; for status 403 the error string is exactly
`Failed to fetch search page (status=403)`. -/
theorem c2_search_http_error_record (q : Str) (m : Int)
    (fetch : Str → FetchOutcome) (n : Int)
    (h : fetch (searchUrlFor q) = FetchOutcome.httpError (some n)) :
    runScrape q m fetch =
      ([⟨q, none, none, searchUrlFor q, [], some (searchFailMsg (some n))⟩], none)
    ∧ searchFailMsg (some 403) = "Failed to fetch search page (status=403)".toList := by
  refine ⟨?_, by decide⟩
  unfold runScrape
  rw [h]
  rfl

/-- C2 (witness): the 403 end-to-end example from the spec. -/
theorem c2_witness :
    runScrape "Bohemian Rhapsody".toList 1 httpFetch =
      ([⟨"Bohemian Rhapsody".toList, none, none,
          searchUrlFor "Bohemian Rhapsody".toList, [],
          some (searchFailMsg (some 403))⟩], none)
    ∧ searchFailMsg (some 403) = "Failed to fetch search page (status=403)".toList :=
  c2_search_http_error_record "Bohemian Rhapsody".toList 1 httpFetch 403 rfl

/-- C3: when the search succeeds and no candidate fetch fails with an
uncaught transport error, the run pushes exactly one record per candidate
in order — so one candidate's HTTP failure never aborts its siblings — and
a candidate whose fetch raised `HTTPError st` gets a record with empty
lyrics and a status-embedding error string; for 404 the string is exactly
`Failed to fetch song page (status=404)`. -/
theorem c3_candidate_http_failure_isolated (q : Str) (m : Int)
    (fetch : Str → FetchOutcome) (doc : List Node)
    (hok : fetch (searchUrlFor q) = FetchOutcome.ok doc)
    (hne : parse_search_results doc m ≠ [])
    (hnf : ∀ c ∈ parse_search_results doc m, fetch c.url ≠ FetchOutcome.netFail) :
    runScrape q m fetch = ((parse_search_results doc m).map (candRecord q fetch), none)
    ∧ (∀ (c : SearchCandidate) (st : Option Int),
        fetch c.url = FetchOutcome.httpError st →
        candRecord q fetch c =
          ⟨q, some c.song_title, some c.artist_name, c.url, [],
            some (songFailMsg st)⟩)
    ∧ songFailMsg (some 404) = "Failed to fetch song page (status=404)".toList := by
  refine ⟨?_, ?_, by decide⟩
  · unfold runScrape
    rw [hok]
    dsimp only
    rw [if_neg (show ¬((parse_search_results doc m).isEmpty = true) by
      simpa [List.isEmpty_iff] using hne)]
    exact candLoop_map q fetch _ hnf
  · intro c st h
    unfold candRecord
    rw [h]
    rfl

/-- C3 (witness): one candidate whose page fetch returns HTTP 404. -/
theorem c3_witness :
    runScrape q0 1 fetch404 =
      ((parse_search_results sampleDoc 1).map (candRecord q0 fetch404), none)
    ∧ songFailMsg (some 404) = "Failed to fetch song page (status=404)".toList := by
  have hnf : ∀ c ∈ parse_search_results sampleDoc 1,
      fetch404 c.url ≠ FetchOutcome.netFail := by
    intro c hc hcon
    have hps : parse_search_results sampleDoc 1 = [sampleCand] := by decide
    rw [hps, List.mem_singleton] at hc
    rw [hc] at hcon
    have he : fetch404 sampleCand.url = FetchOutcome.httpError (some 404) := rfl
    rw [he] at hcon
    exact FetchOutcome.noConfusion hcon
  obtain ⟨h1, _, h3⟩ :=
    c3_candidate_http_failure_isolated q0 1 fetch404 sampleDoc rfl (by decide) hnf
  exact ⟨h1, h3⟩

/-- C4: every record the run pushes whose error field is non-null has an
empty lyricsText — across the search-failure record, the no-candidates
record and the per-candidate records. -/
theorem c4_error_implies_empty_lyrics (sq : Option Str) (msRaw : Option Int)
    (fetch : Str → FetchOutcome) :
    ∀ r ∈ (runMain sq msRaw fetch).1, r.error ≠ none → r.lyricsText = [] := by
  intro r hr herr
  cases sq with
  | none => exact absurd hr (by simp [runMain])
  | some q =>
    unfold runMain at hr
    dsimp only at hr
    by_cases hqe : q.isEmpty
    · rw [if_pos hqe] at hr
      exact absurd hr (by simp)
    · rw [if_neg hqe] at hr
      unfold runScrape at hr
      cases hf : fetch (searchUrlFor q) with
      | netFail =>
        rw [hf] at hr
        exact absurd hr (by simp)
      | httpError st =>
        rw [hf] at hr
        have hr1 := List.mem_singleton.mp hr
        rw [hr1]
        rfl
      | ok doc =>
        rw [hf] at hr
        dsimp only at hr
        by_cases he : (parse_search_results doc (coerceMaxSongs msRaw)).isEmpty
        · rw [if_pos he] at hr
          have hr1 := List.mem_singleton.mp hr
          rw [hr1]
          rfl
        · rw [if_neg he] at hr
          exact candLoop_error_empty q fetch _ r hr herr

/-- C4 (witness): the 403 search-failure record has empty lyrics text. -/
theorem c4_witness : (searchFailRecord q0 (searchUrlFor q0) (some 403)).lyricsText = [] :=
  c4_error_implies_empty_lyrics (some q0) none httpFetch
    (searchFailRecord q0 (searchUrlFor q0) (some 403)) (by decide) (by decide)

/-- C5 (counterexample): `max_songs` is a Python `int`, so it can be
negative; the result then has length 0, which is not at most `max_count`.
Here a page with one matching anchor and `max_count = -1`. -/
theorem c5_negative_bound_counterexample :
    ¬ (((parse_search_results sampleDoc (-1)).length : Int) ≤ -1) := by
  decide

/-- C5 (amended): for every document and every `max_count`, the candidate
list has length at most `max(max_count, 0)` (`Int.toNat`); for non-negative
`max_count` this is exactly the original bound. -/
theorem c5_length_le_toNat (doc : List Node) (m : Int) :
    (parse_search_results doc m).length ≤ m.toNat := by
  unfold parse_search_results
  by_cases he : (scanLoop miniProcess m [] (selectMiniCards doc)).isEmpty
  · rw [if_pos he]
    exact scanLoop_length fallbackProcess m _ [] (by simp)
  · rw [if_neg he]
    exact scanLoop_length miniProcess m _ [] (by simp)

/-- C6: every candidate returned by `parse_search_results` has a non-empty
`song_title`, in both the mini-card and the fallback layout. -/
theorem c6_title_nonempty (doc : List Node) (m : Int) :
    ∀ c ∈ parse_search_results doc m, c.song_title ≠ [] := by
  intro c hc
  unfold parse_search_results at hc
  by_cases he : (scanLoop miniProcess m [] (selectMiniCards doc)).isEmpty
  · rw [if_pos he] at hc
    exact scanLoop_mem fallbackProcess m _
      (fun a c h => (fallbackProcess_good h).2) _ [] (by simp) c hc
  · rw [if_neg he] at hc
    exact scanLoop_mem miniProcess m _
      (fun a c h => (miniProcess_good h).2) _ [] (by simp) c hc

/-- C6 (witness): the candidate extracted from `sampleDoc`. -/
theorem c6_witness : sampleCand.song_title ≠ [] :=
  c6_title_nonempty sampleDoc 1 sampleCand (by decide)

/-- C7 (counterexample): the code's URL filter `LYRICS_URL_RE` also accepts
the plain `http` scheme, so a returned candidate need not match the spec's
literal pattern `https://genius.com/<slug>-lyrics`. -/
theorem c7_http_scheme_counterexample :
    parse_search_results httpDoc 1 =
      [⟨"http://genius.com/abc-lyrics".toList, "T".toList, []⟩]
    ∧ specLyricsUrl "http://genius.com/abc-lyrics".toList = false := by
  decide

/-- C7 (amended): every candidate returned by `parse_search_results` has a
URL accepted by the source pattern `^https?://genius\.com/.+-lyrics/?$`
(scheme `http` or `https`), and anchors whose href fails that pattern are
skipped without counting toward `max_count`: filtering them away does not
change either scanning loop's result. -/
theorem c7_url_pattern (doc : List Node) (m : Int) :
    (∀ c ∈ parse_search_results doc m, lyricsUrlRe c.url = true)
    ∧ scanLoop miniProcess m [] (selectMiniCards doc) =
        scanLoop miniProcess m []
          ((selectMiniCards doc).filter (fun a => lyricsUrlRe (hrefOf a)))
    ∧ scanLoop fallbackProcess m [] (selectAnchorsHref doc) =
        scanLoop fallbackProcess m []
          ((selectAnchorsHref doc).filter (fun a => lyricsUrlRe (hrefOf a))) := by
  refine ⟨?_, ?_, ?_⟩
  · intro c hc
    unfold parse_search_results at hc
    by_cases he : (scanLoop miniProcess m [] (selectMiniCards doc)).isEmpty
    · rw [if_pos he] at hc
      exact scanLoop_mem fallbackProcess m _
        (fun a c h => (fallbackProcess_good h).1) _ [] (by simp) c hc
    · rw [if_neg he] at hc
      exact scanLoop_mem miniProcess m _
        (fun a c h => (miniProcess_good h).1) _ [] (by simp) c hc
  · exact scanLoop_filter miniProcess _ m
      (fun a h => miniProcess_skip (by simpa using h)) _ []
  · exact scanLoop_filter fallbackProcess _ m
      (fun a h => fallbackProcess_skip (by simpa using h)) _ []

/-- C7 (witness): the sample candidate's URL is accepted by the pattern. -/
theorem c7_witness : lyricsUrlRe sampleCand.url = true :=
  (c7_url_pattern sampleDoc 1).1 sampleCand (by decide)

/-- C8 (counterexample): the claim says the flattened-text fallback fires
whenever either sub-element is absent or empty.  On this anchor the
subtitle sub-element is absent while the title sub-element yields `T`, and
the flattened text `T – B` splits at the en-dash into title `T`, artist
`B`; yet the code performs no fallback and returns an empty artist, not
`B`. -/
theorem c8_subtitle_only_counterexample :
    (selectOneClass "mini_card-subtitle".toList c8Anchor).isNone = true
    ∧ splitFirst enDashSep (anchorTextOf c8Anchor) = some ("T".toList, "B".toList)
    ∧ parse_search_results [c8Anchor] 1 =
        [⟨"https://genius.com/x-lyrics".toList, "T".toList, []⟩]
    ∧ ([] : Str) ≠ "B".toList := by
  decide

/-- C8 (amended): in the mini-card layout the flattened-text fallback fires
exactly when the title sub-element is absent or yields empty text (the
subtitle alone never triggers it); the text is split at `" – "` first, then
`" - "`; when neither separator occurs, the whole text becomes the title
and the artist keeps the subtitle-derived value. -/
theorem c8_fallback_characterisation (a : Node)
    (hurl : lyricsUrlRe (hrefOf a) = true) :
    (titleTextOf a ≠ [] →
      miniProcess a =
        some ⟨hrefOf a, strip (titleTextOf a), strip (subtitleTextOf a)⟩)
    ∧ (titleTextOf a = [] →
        ∀ t r, splitFirst enDashSep (anchorTextOf a) = some (t, r) →
        miniProcess a = some ⟨hrefOf a, strip t, strip r⟩)
    ∧ (titleTextOf a = [] → splitFirst enDashSep (anchorTextOf a) = none →
        ∀ t r, splitFirst hyphenSep (anchorTextOf a) = some (t, r) →
        miniProcess a = some ⟨hrefOf a, strip t, strip r⟩)
    ∧ (titleTextOf a = [] → splitFirst enDashSep (anchorTextOf a) = none →
        splitFirst hyphenSep (anchorTextOf a) = none → anchorTextOf a ≠ [] →
        miniProcess a =
          some ⟨hrefOf a, strip (anchorTextOf a), strip (subtitleTextOf a)⟩) := by
  have hnurl : ¬(lyricsUrlRe (hrefOf a) = false) := by simp [hurl]
  refine ⟨?_, ?_, ?_, ?_⟩
  · intro ht
    have hta : miniTitleArtist a = (titleTextOf a, subtitleTextOf a) := by
      unfold miniTitleArtist
      rw [if_neg ht]
    unfold miniProcess
    rw [if_neg hnurl, hta]
    rw [if_neg (show ¬((titleTextOf a, subtitleTextOf a).1 = []) from ht)]
  · intro ht t r hsp
    have hta : miniTitleArtist a = (t, r) := by
      unfold miniTitleArtist
      rw [if_pos ht, hsp]
    have htne : t ≠ [] :=
      (splitFirst_space_fst enDashSep (anchorTextOf a) t r ⟨_, rfl⟩
        (niceStr_anchorText a) hsp).1
    unfold miniProcess
    rw [if_neg hnurl, hta]
    rw [if_neg (show ¬((t, r).1 = []) from htne)]
  · intro ht hn1 t r hsp
    have hta : miniTitleArtist a = (t, r) := by
      unfold miniTitleArtist
      rw [if_pos ht, hn1, hsp]
    have htne : t ≠ [] :=
      (splitFirst_space_fst hyphenSep (anchorTextOf a) t r ⟨_, rfl⟩
        (niceStr_anchorText a) hsp).1
    unfold miniProcess
    rw [if_neg hnurl, hta]
    rw [if_neg (show ¬((t, r).1 = []) from htne)]
  · intro ht hn1 hn2 htext
    have hta : miniTitleArtist a = (anchorTextOf a, subtitleTextOf a) := by
      unfold miniTitleArtist
      rw [if_pos ht, hn1, hn2]
    unfold miniProcess
    rw [if_neg hnurl, hta]
    rw [if_neg (show ¬((anchorTextOf a, subtitleTextOf a).1 = []) from htext)]

/-- C8 (witness): on `c8Anchor` the title sub-element is non-empty, so no
fallback happens and the artist comes from the (absent) subtitle. -/
theorem c8_witness :
    miniProcess c8Anchor =
      some ⟨hrefOf c8Anchor, strip (titleTextOf c8Anchor),
        strip (subtitleTextOf c8Anchor)⟩ :=
  (c8_fallback_characterisation c8Anchor (by decide)).1 (by decide)

/-- C9: given an LLM response parsed into a JSON object, the validation in
`get_first_album_from_llm` raises exactly when the object has no top-level
`tracks` field or its value is not a list. -/
theorem c9_tracks_validation (fields : List (Str × Json)) :
    isErr (get_first_album_check fields) = true ↔
      (dictLookup "tracks".toList fields = none
        ∨ ∃ j, dictLookup "tracks".toList fields = some j
            ∧ ∀ xs, j ≠ Json.arr xs) := by
  unfold get_first_album_check
  cases h : dictLookup "tracks".toList fields with
  | none => exact ⟨fun _ => Or.inl rfl, fun _ => rfl⟩
  | some j =>
    cases j with
    | arr xs =>
      constructor
      · intro hcon
        exact absurd hcon Bool.false_ne_true
      · intro hr
        rcases hr with h0 | ⟨j2, hj2, hne⟩
        · exact absurd h0 (by simp)
        · have hj : Json.arr xs = j2 := by injection hj2
          exact absurd hj.symm (hne xs)
    | null =>
      exact ⟨fun _ => Or.inr ⟨Json.null, rfl, fun xs hx => Json.noConfusion hx⟩,
        fun _ => rfl⟩
    | bool b =>
      exact ⟨fun _ => Or.inr ⟨Json.bool b, rfl, fun xs hx => Json.noConfusion hx⟩,
        fun _ => rfl⟩
    | num n =>
      exact ⟨fun _ => Or.inr ⟨Json.num n, rfl, fun xs hx => Json.noConfusion hx⟩,
        fun _ => rfl⟩
    | str s =>
      exact ⟨fun _ => Or.inr ⟨Json.str s, rfl, fun xs hx => Json.noConfusion hx⟩,
        fun _ => rfl⟩
    | obj fs =>
      exact ⟨fun _ => Or.inr ⟨Json.obj fs, rfl, fun xs hx => Json.noConfusion hx⟩,
        fun _ => rfl⟩

/-- C10: for every `max_count ≤ 0` the extractor returns the empty list even
when matching anchors exist, and a run reaching extraction with such a bound
emits exactly the no-candidates error record. -/
theorem c10_nonpositive_bound (doc : List Node) (m : Int) (hm : m ≤ 0) :
    parse_search_results doc m = []
    ∧ ∀ (q : Str) (fetch : Str → FetchOutcome) (sdoc : List Node),
        fetch (searchUrlFor q) = FetchOutcome.ok sdoc →
        runScrape q m fetch = ([noCandidatesRecord q (searchUrlFor q)], none) := by
  have hp : ∀ d : List Node, parse_search_results d m = [] := by
    intro d
    unfold parse_search_results
    rw [scanLoop_stop miniProcess m [] _ (by simpa using hm),
      scanLoop_stop fallbackProcess m [] _ (by simpa using hm)]
    simp
  refine ⟨hp doc, ?_⟩
  intro q fetch sdoc hf
  unfold runScrape
  rw [hf]
  dsimp only
  rw [hp sdoc]
  rfl

/-- C10 (witness): a page with a matching anchor, `max_count = 0`. -/
theorem c10_witness :
    parse_search_results sampleDoc 0 = []
    ∧ runScrape q0 0 okEmptyFetch =
        ([noCandidatesRecord q0 (searchUrlFor q0)], none) := by
  obtain ⟨h1, h2⟩ := c10_nonpositive_bound sampleDoc 0 (by decide)
  exact ⟨h1, h2 q0 okEmptyFetch [] rfl⟩

end GeniusScrape
